import Mathlib

/-!
Verification of the (Mg,Fe)O volume–composition analysis code
(CMSE802 final project).  Numeric values are modelled as exact
rationals `ℚ`; `print`-based warnings are modelled as returned warning
lists; `raise ValueError` is modelled as `Except.error` with a
dedicated error constructor per raise site.
-/

namespace MgFeO

/-- Equality of `Except` results is decidable when both components'
equalities are, so concrete runs can be checked by `decide`. -/
instance exceptDecEq {ε α : Type} [DecidableEq ε] [DecidableEq α] :
    DecidableEq (Except ε α)
  | .error a, .error b => decidable_of_iff (a = b) (by simp)
  | .error _, .ok _ => isFalse (by simp)
  | .ok _, .error _ => isFalse (by simp)
  | .ok a, .ok b => decidable_of_iff (a = b) (by simp)

/-- Errors raised by `estimate_fe` (src/fe_calculation.py): one
constructor per `raise ValueError` site. -/
inductive FeError where
  | nonPositiveVolume
  | zeroSlope
  deriving DecidableEq, Repr

/-- Warnings printed by `estimate_fe` (src/fe_calculation.py). -/
inductive FeWarning where
  | unusuallyLargeVolume
  | outOfPhysicalRange
  deriving DecidableEq, Repr

/-- Embedding of `estimate_fe(volume, a, b)` from src/fe_calculation.py:
checks `volume <= 0` (raise), prints a warning when `volume > 81`,
checks `a == 0` (raise), computes `x = (volume - b) / a`, prints a
warning when `x < 0 or x > 1`, and returns `x`.  Printed warnings are
collected in the returned list, in program order. -/
def estimate_fe (volume a b : ℚ) : Except FeError (ℚ × List FeWarning) :=
  if volume ≤ 0 then
    .error .nonPositiveVolume
  else
    let w1 : List FeWarning :=
      if 81 < volume then [.unusuallyLargeVolume] else []
    if a = 0 then
      .error .zeroSlope
    else
      let x := (volume - b) / a
      let w2 : List FeWarning :=
        if x < 0 ∨ 1 < x then [.outOfPhysicalRange] else []
      .ok (x, w1 ++ w2)

/-- Error raised by `vegards_volume` (src/vegards_volume.py) when a
provided fraction lies outside [0,1]. -/
inductive VolumeError where
  | outOfRangeFraction
  deriving DecidableEq, Repr

/-- The elementwise interpolation `(1 - x) * V_MgO + x * V_FeO`
from line `V_interp = (1 - x_values) * V_MgO + x_values * V_FeO`
of src/vegards_volume.py. -/
def V_interp_at (V_MgO V_FeO x : ℚ) : ℚ :=
  (1 - x) * V_MgO + x * V_FeO

/-- `np.linspace(0, 1, 100)`: 100 evenly spaced points from 0 to 1
inclusive, i.e. the points `i / 99` for `i = 0, …, 99`. -/
def linspace01_100 : List ℚ :=
  (List.range 100).map (fun i : ℕ => (i : ℚ) / 99)

/-- Embedding of `vegards_volume(V_MgO, V_FeO, x_values=None)` from
src/vegards_volume.py: when `x_values` is `None` it uses
`np.linspace(0, 1, 100)`; otherwise it raises when any fraction is
`< 0` or `> 1`; it returns the fractions together with the
elementwise interpolated volumes. -/
def vegards_volume (V_MgO V_FeO : ℚ) (x_values : Option (List ℚ)) :
    Except VolumeError (List ℚ × List ℚ) :=
  match x_values with
  | none =>
      .ok (linspace01_100, linspace01_100.map (V_interp_at V_MgO V_FeO))
  | some xs =>
      if xs.any (fun v => v < 0) ∨ xs.any (fun v => 1 < v) then
        .error .outOfRangeFraction
      else
        .ok (xs, xs.map (V_interp_at V_MgO V_FeO))

/-- The elementwise Vegard baseline `(V_FeO - V_MgO) * x + V_MgO` from
line `V_vegard = (V_FeO - V_MgO) * x + V_MgO` of
src/calculate_deviation.py. -/
def V_vegard_at (x V_MgO V_FeO : ℚ) : ℚ :=
  (V_FeO - V_MgO) * x + V_MgO

/-- Division as numpy floats behave on it: a zero divisor produces a
non-finite value (`inf` or `nan`), modelled as `none`. -/
def fdiv (p q : ℚ) : Option ℚ :=
  if q = 0 then none else some (p / q)

/-- `np.mean` over a list of values, some of which may already be
non-finite (`none`): the mean of an empty array is `nan`, and any
non-finite element makes the mean non-finite (all the summands here
are non-negative or non-finite, so no cancellation back to a finite
value is possible). -/
def fmean (l : List (Option ℚ)) : Option ℚ :=
  if l = [] then none
  else if l.all Option.isSome then
    some ((l.map (fun o => o.getD 0)).sum / l.length)
  else none

/-- `np.mean` over an array of finite values:`nan` (modelled `none`)
on an empty array, the arithmetic mean otherwise. -/
def npmean (l : List ℚ) : Option ℚ :=
  if l = [] then none else some (l.sum / l.length)

/-- Embedding of `calculate_deviation_vegard(x, V, V_MgO, V_FeO, V_lsf)`
from src/calculate_deviation.py: computes the Vegard baseline
`V_vegard`, the absolute deviation `|V_lsf - V_vegard|`, the relative
deviation `deviation / |V_vegard| * 100` (non-finite when a baseline
value is 0 — the source has no guard), and returns the two means.
The argument `V` appears in the source signature but is never used in
the body. -/
def calculate_deviation_vegard (x V : List ℚ) (V_MgO V_FeO : ℚ)
    (V_lsf : List ℚ) : Option ℚ × Option ℚ :=
  let _ := V
  let V_vegard := x.map (fun xi => V_vegard_at xi V_MgO V_FeO)
  let deviation := List.zipWith (fun a b => |a - b|) V_lsf V_vegard
  let relative_deviation :=
    List.zipWith (fun d v => (fdiv d |v|).map (· * 100)) deviation V_vegard
  let mean_deviation := npmean deviation
  let mean_relative_deviation := fmean relative_deviation
  (mean_deviation, mean_relative_deviation)

/-- A numpy scalar as the validator sees it: a finite value, `nan`,
or a (signed) infinity. -/
inductive PyFloat where
  | fin (q : ℚ)
  | nan
  | inf
  | ninf
  deriving DecidableEq, Repr

/-- `np.isnan` on a scalar. -/
def PyFloat.isNaN : PyFloat → Bool
  | .nan => true
  | _ => false

/-- `np.isinf` on a scalar: true for both infinities, false for `nan`
and finite values. -/
def PyFloat.isInf : PyFloat → Bool
  | .inf => true
  | .ninf => true
  | _ => false

/-- The finite value of a scalar (unreachable junk 0 otherwise; the
validator only reads it after the NaN/Inf checks have passed). -/
def PyFloat.val : PyFloat → ℚ
  | .fin q => q
  | _ => 0

/-- Errors raised by `check_data_validity` (src/data_validator.py):
one constructor per `raise ValueError` site, in source order. -/
inductive ValidationError where
  | shapeMismatch
  | emptyInput
  | nanValue
  | infValue
  deriving DecidableEq, Repr

/-- Minimum of a non-empty array, as `np.min` reduces it. -/
def npmin : List ℚ → ℚ
  | [] => 0
  | a :: t => t.foldl min a

/-- Maximum of a non-empty array, as `np.max` reduces it. -/
def npmax : List ℚ → ℚ
  | [] => 0
  | a :: t => t.foldl max a

/-- Arithmetic mean of a non-empty array, as `np.mean` computes it. -/
def meanQ (l : List ℚ) : ℚ :=
  l.sum / l.length

/-- The population variance `mean((v - mean(l))^2)`: the square of
`np.std(l)` (numpy's default `ddof=0`).  `np.std` itself is its
square root, carried here in squared form since the square root of a
rational is in general irrational. -/
def varQ (l : List ℚ) : ℚ :=
  meanQ (l.map (fun v => (v - meanQ l) ^ 2))

/-- The statistics `check_data_validity` prints for one array:
`np.min`, `np.max`, `np.mean`, and `np.std` (the latter carried as
its square, the population variance). -/
structure Stats where
  min : ℚ
  max : ℚ
  mean : ℚ
  var : ℚ
  deriving DecidableEq, Repr

/-- The statistics line printed for one array. -/
def statsOf (l : List ℚ) : Stats :=
  ⟨npmin l, npmax l, meanQ l, varQ l⟩

/-- Embedding of `check_data_validity(x, V)` from src/data_validator.py:
raises on length mismatch, then on emptiness, then when any element of
`x` or `V` is NaN, then when any is infinite; otherwise prints the
summary statistics of both arrays (modelled as the returned value). -/
def check_data_validity (x V : List PyFloat) :
    Except ValidationError (Stats × Stats) :=
  if x.length ≠ V.length then
    .error .shapeMismatch
  else if x.length = 0 ∨ V.length = 0 then
    .error .emptyInput
  else if x.any PyFloat.isNaN ∨ V.any PyFloat.isNaN then
    .error .nanValue
  else if x.any PyFloat.isInf ∨ V.any PyFloat.isInf then
    .error .infValue
  else
    .ok (statsOf (x.map PyFloat.val), statsOf (V.map PyFloat.val))

/-- C1: `estimate_fe` raises `NonPositiveVolume` when `volume <= 0`
(checked before any other condition, in particular regardless of `a`),
raises `ZeroSlope` when `a == 0`, and otherwise returns
`x = (volume - b) / a`. -/
theorem estimate_fe_error_cases (volume a b : ℚ) :
    (volume ≤ 0 → estimate_fe volume a b = .error .nonPositiveVolume) ∧
    (0 < volume → a = 0 → estimate_fe volume a b = .error .zeroSlope) ∧
    (0 < volume → a ≠ 0 →
      ∃ ws, estimate_fe volume a b = .ok ((volume - b) / a, ws)) := by
  refine ⟨fun h => ?_, fun h1 h2 => ?_, fun h1 h2 => ?_⟩
  · simp [estimate_fe, h]
  · simp [estimate_fe, not_le.mpr h1, h2]
  · refine ⟨(if 81 < volume then [FeWarning.unusuallyLargeVolume] else []) ++
        (if (volume - b) / a < 0 ∨ 1 < (volume - b) / a then
          [FeWarning.outOfPhysicalRange] else []), ?_⟩
    simp [estimate_fe, not_le.mpr h1, h2]

/-- Witness for C1 at the spec's concrete inputs:
`estimate_fe(-5, 1, 0)` fails with `NonPositiveVolume` and
`estimate_fe(10, 0, 5)` fails with `ZeroSlope`. -/
theorem estimate_fe_error_cases_witness :
    estimate_fe (-5) 1 0 = .error .nonPositiveVolume ∧
    estimate_fe 10 0 5 = .error .zeroSlope :=
  ⟨(estimate_fe_error_cases (-5) 1 0).1 (by norm_num),
   (estimate_fe_error_cases 10 0 5).2.1 (by norm_num) rfl⟩

/-- C2: with the baked-in fit `a = 4.816 = 602/125`,
`b = 75.074 = 37537/500` supplied explicitly, the estimator returns
exactly `0` at volume `75.074` and exactly `1` at volume
`79.89 = 7989/100` (the values the one-argument default form is
documented and tested to produce).  The source signature
`estimate_fe(volume, a, b)` itself offers no default parameters, so
the one-argument calls made by the repository's own tests and
docstring cannot succeed. -/
theorem estimate_fe_default_fit_values :
    estimate_fe (37537/500) (602/125) (37537/500) = .ok (0, []) ∧
    estimate_fe (7989/100) (602/125) (37537/500) = .ok (1, []) := by
  constructor <;> norm_num [estimate_fe]

/-- C6: for `volume > 0` and `a ≠ 0` the estimator always returns the
uncut value `x = (volume - b)/a`, and the `OutOfPhysicalRange` warning
is attached exactly when `x < 0` or `x > 1` — the value is never
rejected or clamped. -/
theorem estimate_fe_out_of_range_warning (volume a b : ℚ)
    (hv : 0 < volume) (ha : a ≠ 0) :
    ∃ ws, estimate_fe volume a b = .ok ((volume - b) / a, ws) ∧
      (FeWarning.outOfPhysicalRange ∈ ws ↔
        ((volume - b) / a < 0 ∨ 1 < (volume - b) / a)) := by
  refine ⟨(if 81 < volume then [FeWarning.unusuallyLargeVolume] else []) ++
      (if (volume - b) / a < 0 ∨ 1 < (volume - b) / a then
        [FeWarning.outOfPhysicalRange] else []), ?_, ?_⟩
  · simp [estimate_fe, not_le.mpr hv, ha]
  · by_cases h81 : (81 : ℚ) < volume <;>
      by_cases hx : ((volume - b) / a < 0 ∨ 1 < (volume - b) / a) <;>
      simp [h81, hx]

/-- Witness for C6 at the spec's concrete input:
`estimate_fe(70, 4.816, 75.074)` returns a negative `x` together with
the `OutOfPhysicalRange` warning. -/
theorem estimate_fe_out_of_range_warning_witness :
    (∃ ws, estimate_fe 70 (602/125) (37537/500) =
        .ok (((70 : ℚ) - 37537/500) / (602/125), ws) ∧
      (FeWarning.outOfPhysicalRange ∈ ws ↔
        (((70 : ℚ) - 37537/500) / (602/125) < 0 ∨
          1 < ((70 : ℚ) - 37537/500) / (602/125)))) ∧
    ((70 : ℚ) - 37537/500) / (602/125) < 0 :=
  ⟨estimate_fe_out_of_range_warning 70 (602/125) (37537/500)
      (by norm_num) (by norm_num),
   by norm_num⟩

/-- C8: the Interpolator's elementwise formula
`(1 - x) * V_MgO + x * V_FeO` (src/vegards_volume.py) and the
Deviation Analyzer's Vegard baseline `(V_FeO - V_MgO) * x + V_MgO`
(src/calculate_deviation.py) agree at every point. -/
theorem interp_eq_vegard_baseline (x V_MgO V_FeO : ℚ) :
    V_interp_at V_MgO V_FeO x = V_vegard_at x V_MgO V_FeO := by
  simp only [V_interp_at, V_vegard_at]
  ring

/-- C10: `calculate_deviation_vegard` never reads its experimental
volume argument `V`, so its result is identical for any two values of
that argument. -/
theorem calculate_deviation_vegard_ignores_V
    (x V1 V2 : List ℚ) (V_MgO V_FeO : ℚ) (V_lsf : List ℚ) :
    calculate_deviation_vegard x V1 V_MgO V_FeO V_lsf =
      calculate_deviation_vegard x V2 V_MgO V_FeO V_lsf := rfl

/-- C7: `vegards_volume` with `x_values` omitted uses 100 evenly
spaced points over [0,1] inclusive (the `i/99` grid, starting at 0 and
ending at 1); with `x_values` provided it fails with
`OutOfRangeFraction` when any value lies outside [0,1] and otherwise
returns `V = (1-x)*V_MgO + x*V_FeO` elementwise. -/
theorem vegards_volume_spec (V_MgO V_FeO : ℚ) (xs : List ℚ) :
    vegards_volume V_MgO V_FeO none =
      .ok (linspace01_100, linspace01_100.map (V_interp_at V_MgO V_FeO)) ∧
    linspace01_100.length = 100 ∧
    linspace01_100.head? = some 0 ∧
    linspace01_100.getLast? = some 1 ∧
    (∀ i (h : i < linspace01_100.length),
      linspace01_100.get ⟨i, h⟩ = (i : ℚ) / 99) ∧
    ((∃ v ∈ xs, v < 0 ∨ 1 < v) →
      vegards_volume V_MgO V_FeO (some xs) = .error .outOfRangeFraction) ∧
    ((∀ v ∈ xs, 0 ≤ v ∧ v ≤ 1) →
      vegards_volume V_MgO V_FeO (some xs) =
        .ok (xs, xs.map (V_interp_at V_MgO V_FeO))) := by
  refine ⟨rfl, rfl, by norm_num [linspace01_100, List.range_succ],
    by norm_num [linspace01_100, List.range_succ], ?_, ?_, ?_⟩
  · intro i h
    rw [List.get_eq_getElem]
    simp only [linspace01_100, List.getElem_map, List.getElem_range]
  · rintro ⟨v, hv, hlt⟩
    simp only [vegards_volume]
    rw [if_pos]
    rcases hlt with h | h
    · exact Or.inl (by rw [List.any_eq_true]; exact ⟨v, hv, decide_eq_true h⟩)
    · exact Or.inr (by rw [List.any_eq_true]; exact ⟨v, hv, decide_eq_true h⟩)
  · intro hall
    simp only [vegards_volume]
    rw [if_neg]
    rintro (h | h) <;> rw [List.any_eq_true] at h <;> obtain ⟨v, hv, hp⟩ := h
    · exact absurd (of_decide_eq_true hp) (not_lt.mpr (hall v hv).1)
    · exact absurd (of_decide_eq_true hp) (not_lt.mpr (hall v hv).2)

/-- Witness for C7 at the spec's concrete inputs:
`interpolate(74, 80, [0, 0.5, 1])` returns `[74, 77, 80]` exactly and
`interpolate(74, 80, [-0.1])` fails with `OutOfRangeFraction`. -/
theorem vegards_volume_spec_witness :
    vegards_volume 74 80 (some [0, 1/2, 1]) = .ok ([0, 1/2, 1], [74, 77, 80]) ∧
    vegards_volume 74 80 (some [-1/10]) = .error .outOfRangeFraction := by
  have h1 := (vegards_volume_spec 74 80 [0, 1/2, 1]).2.2.2.2.2.2
    (by norm_num)
  have h2 := (vegards_volume_spec 74 80 [-1/10]).2.2.2.2.2.1
    ⟨-1/10, by norm_num, by norm_num⟩
  refine ⟨?_, h2⟩
  rw [h1]
  norm_num [V_interp_at]

/-- C3 counterexample: at `x = [0, 1]`, `V_MgO = 0`, `V_FeO = 5`,
`V_lsf = [1, 6]` the baseline value at the first point is exactly 0,
yet `calculate_deviation_vegard` neither excludes that point (which
would give mean relative deviation `some 20`, from the surviving
second point) nor signals an error (its result type has no error
channel): it divides by zero, and the mean relative deviation comes
out non-finite (`none`). -/
theorem calculate_deviation_vegard_zero_baseline_counterexample :
    V_vegard_at 0 0 5 = 0 ∧
    calculate_deviation_vegard [0, 1] [0, 0] 0 5 [1, 6] = (some 1, none) ∧
    (none : Option ℚ) ≠ some 20 := by
  refine ⟨by norm_num [V_vegard_at], ?_, by simp⟩
  norm_num [calculate_deviation_vegard, V_vegard_at, fdiv, fmean, npmean]
  exact fun h => absurd h (by simp)

/-- C3 amended: `calculate_deviation_vegard` has no guard at all —
whenever some baseline value `(V_FeO - V_MgO)*x[i] + V_MgO` is 0
(with `V_lsf` of the same length as `x`), the division by zero goes
through and the returned mean relative deviation is non-finite,
rather than the point being excluded or an error signalled. -/
theorem calculate_deviation_vegard_unguarded_div (x V : List ℚ)
    (V_MgO V_FeO : ℚ) (V_lsf : List ℚ) (hlen : V_lsf.length = x.length)
    (i : ℕ) (hi : i < x.length)
    (hz : V_vegard_at (x.get ⟨i, hi⟩) V_MgO V_FeO = 0) :
    (calculate_deviation_vegard x V V_MgO V_FeO V_lsf).2 = none := by
  simp only [calculate_deviation_vegard]
  set vg := x.map (fun xi => V_vegard_at xi V_MgO V_FeO) with hvg
  set dev := List.zipWith (fun a b => |a - b|) V_lsf vg with hdev
  set rel := List.zipWith (fun d v => (fdiv d |v|).map (· * 100)) dev vg
    with hrel
  have hvglen : vg.length = x.length := by simp [hvg]
  have hdevlen : dev.length = x.length := by simp [hdev, hvglen, hlen]
  have hrellen : rel.length = x.length := by simp [hrel, hdevlen, hvglen]
  have hi2 : i < rel.length := hrellen ▸ hi
  have hget : rel.get ⟨i, hi2⟩ = none := by
    rw [List.get_eq_getElem]
    simp only [hrel, List.getElem_zipWith, hvg, List.getElem_map]
    rw [List.get_eq_getElem] at hz
    rw [hz]
    simp [fdiv]
  have hmem : (none : Option ℚ) ∈ rel := hget ▸ List.get_mem rel i hi2
  have hne : rel ≠ [] :=
    List.ne_nil_of_length_pos (hrellen ▸ Nat.zero_lt_of_lt hi)
  show fmean rel = none
  rw [fmean, if_neg hne, if_neg]
  intro hall
  rw [List.all_eq_true] at hall
  have := hall none hmem
  simp at this

/-- Witness for the amended C3 at a concrete input with a zero
baseline value. -/
theorem calculate_deviation_vegard_unguarded_div_witness :
    (calculate_deviation_vegard [0, 1] [7, 7] 0 5 [1, 6]).2 = none :=
  calculate_deviation_vegard_unguarded_div [0, 1] [7, 7] 0 5 [1, 6]
    (by simp) 0 (by simp) (by norm_num [V_vegard_at])

/-- Absolute deviation of a curve against itself is pointwise zero. -/
lemma zipWith_abs_sub_self (l : List ℚ) :
    List.zipWith (fun a b => |a - b|) l l = List.replicate l.length 0 := by
  induction l with
  | nil => rfl
  | cons a t ih => simp [List.replicate_succ, ih]

/-- Relative deviations of an all-zero deviation list against nonzero
baseline values are all `some 0`. -/
lemma zipWith_rel_zero (l : List ℚ) (h : ∀ v ∈ l, v ≠ 0) :
    List.zipWith (fun d v => (fdiv d |v|).map (· * 100))
      (List.replicate l.length 0) l = List.replicate l.length (some 0) := by
  induction l with
  | nil => rfl
  | cons a t ih =>
      simp only [List.length_cons, List.replicate_succ, List.zipWith_cons_cons]
      rw [ih (fun v hv => h v (List.mem_cons_of_mem a hv))]
      have ha : |a| ≠ 0 := by simpa using h a (List.mem_cons_self a t)
      simp [fdiv, ha]

/-- Mean of a non-empty all-zero array is zero. -/
lemma npmean_replicate_zero (n : ℕ) (h : n ≠ 0) :
    npmean (List.replicate n 0) = some 0 := by
  simp [npmean, h]

/-- Mean of a non-empty array of finite zeros is finite zero. -/
lemma fmean_replicate_some_zero (n : ℕ) (h : n ≠ 0) :
    fmean (List.replicate n (some 0)) = some 0 := by
  rw [fmean, if_neg (by simp [h]), if_pos]
  · simp [List.map_replicate]
  · rw [List.all_eq_true]
    intro o ho
    rw [List.eq_of_mem_replicate ho]
    rfl

/-- C9: when `V_lsf` equals the Vegard baseline pointwise on a
non-empty `x` whose baseline values are all nonzero,
`calculate_deviation_vegard` returns mean deviation 0 and mean
relative deviation 0. -/
theorem calculate_deviation_vegard_self (x V : List ℚ) (V_MgO V_FeO : ℚ)
    (hne : x ≠ [])
    (hz : ∀ xi ∈ x, V_vegard_at xi V_MgO V_FeO ≠ 0) :
    calculate_deviation_vegard x V V_MgO V_FeO
      (x.map (fun xi => V_vegard_at xi V_MgO V_FeO)) = (some 0, some 0) := by
  simp only [calculate_deviation_vegard]
  set vg := x.map (fun xi => V_vegard_at xi V_MgO V_FeO) with hvg
  have hvgne : ∀ v ∈ vg, v ≠ 0 := by
    intro v hv
    rw [hvg, List.mem_map] at hv
    obtain ⟨xi, hxi, rfl⟩ := hv
    exact hz xi hxi
  have hlen : vg.length = x.length := by simp [hvg]
  have h1 : List.zipWith (fun a b => |a - b|) vg vg =
      List.replicate vg.length 0 :=
    zipWith_abs_sub_self vg
  rw [h1, zipWith_rel_zero vg hvgne,
    npmean_replicate_zero _ (by simp [hlen, hne]),
    fmean_replicate_some_zero _ (by simp [hlen, hne])]

/-- Witness for C9: the Vegard baseline over `x = [0, 1/2, 1]` with
endmembers 74 and 80 deviates from itself by exactly zero, absolutely
and relatively. -/
theorem calculate_deviation_vegard_self_witness :
    calculate_deviation_vegard [0, 1/2, 1] [1, 2, 3] 74 80
      (List.map (fun xi => V_vegard_at xi 74 80) [0, 1/2, 1]) =
      (some 0, some 0) :=
  calculate_deviation_vegard_self [0, 1/2, 1] [1, 2, 3] 74 80 (by simp)
    (by norm_num [V_vegard_at])

/-- A left fold of `min` is bounded by its seed and every element. -/
lemma foldl_min_le (t : List ℚ) (a : ℚ) :
    t.foldl min a ≤ a ∧ ∀ x ∈ t, t.foldl min a ≤ x := by
  induction t generalizing a with
  | nil => simp
  | cons b t ih =>
      obtain ⟨h1, h2⟩ := ih (min a b)
      refine ⟨?_, ?_⟩
      · simpa using h1.trans (min_le_left a b)
      · intro x hx
        rcases List.mem_cons.mp hx with rfl | hx
        · simpa using h1.trans (min_le_right a x)
        · simpa using h2 x hx

/-- A left fold of `max` dominates its seed and every element. -/
lemma le_foldl_max (t : List ℚ) (a : ℚ) :
    a ≤ t.foldl max a ∧ ∀ x ∈ t, x ≤ t.foldl max a := by
  induction t generalizing a with
  | nil => simp
  | cons b t ih =>
      obtain ⟨h1, h2⟩ := ih (max a b)
      refine ⟨?_, ?_⟩
      · simpa using (le_max_left a b).trans h1
      · intro x hx
        rcases List.mem_cons.mp hx with rfl | hx
        · simpa using (le_max_right a x).trans h1
        · simpa using h2 x hx

/-- `np.min` is a lower bound of the array. -/
lemma npmin_le_mem (l : List ℚ) : ∀ x ∈ l, npmin l ≤ x := by
  cases l with
  | nil => simp
  | cons a t =>
      intro x hx
      rcases List.mem_cons.mp hx with rfl | hx
      · exact (foldl_min_le t x).1
      · exact (foldl_min_le t a).2 x hx

/-- `np.max` is an upper bound of the array. -/
lemma mem_le_npmax (l : List ℚ) : ∀ x ∈ l, x ≤ npmax l := by
  cases l with
  | nil => simp
  | cons a t =>
      intro x hx
      rcases List.mem_cons.mp hx with rfl | hx
      · exact (le_foldl_max t x).1
      · exact (le_foldl_max t a).2 x hx

/-- A lower bound on all elements bounds the sum from below. -/
lemma mul_length_le_sum (l : List ℚ) (m : ℚ) (h : ∀ x ∈ l, m ≤ x) :
    m * l.length ≤ l.sum := by
  induction l with
  | nil => simp
  | cons a t ih =>
      have ha := h a (List.mem_cons_self a t)
      have ht := ih (fun x hx => h x (List.mem_cons_of_mem a hx))
      simp only [List.sum_cons, List.length_cons]
      push_cast
      nlinarith

/-- An upper bound on all elements bounds the sum from above. -/
lemma sum_le_mul_length (l : List ℚ) (M : ℚ) (h : ∀ x ∈ l, x ≤ M) :
    l.sum ≤ M * l.length := by
  induction l with
  | nil => simp
  | cons a t ih =>
      have ha := h a (List.mem_cons_self a t)
      have ht := ih (fun x hx => h x (List.mem_cons_of_mem a hx))
      simp only [List.sum_cons, List.length_cons]
      push_cast
      nlinarith

/-- On a non-empty array, `np.min ≤ np.mean ≤ np.max` and the
variance (the square of `np.std`) is non-negative. -/
lemma stats_sound (l : List ℚ) (h : l ≠ []) :
    npmin l ≤ meanQ l ∧ meanQ l ≤ npmax l ∧ 0 ≤ varQ l := by
  have hlen : (0 : ℚ) < l.length := by
    have := List.length_pos.mpr h
    exact_mod_cast this
  refine ⟨?_, ?_, ?_⟩
  · rw [meanQ, le_div_iff₀ hlen]
    exact mul_length_le_sum l (npmin l) (npmin_le_mem l)
  · rw [meanQ, div_le_iff₀ hlen]
    exact sum_le_mul_length l (npmax l) (mem_le_npmax l)
  · rw [varQ, meanQ]
    apply div_nonneg _ (by positivity)
    apply List.sum_nonneg
    intro q hq
    rw [List.mem_map] at hq
    obtain ⟨v, _, rfl⟩ := hq
    positivity

/-- An array all of whose elements are finite passes both the NaN and
the Inf scan. -/
lemma all_finite_any_false (l : List PyFloat)
    (h : ∀ e ∈ l, e.isNaN = false ∧ e.isInf = false) :
    l.any PyFloat.isNaN = false ∧ l.any PyFloat.isInf = false := by
  constructor <;>
    (rw [← Bool.not_eq_true, List.any_eq_true]; push_neg; intro e he)
  · simp [(h e he).1]
  · simp [(h e he).2]

/-- On equal-length, non-empty, all-finite input the validator reaches
its success branch and reports the statistics of both arrays. -/
lemma check_ok_of_valid (x V : List PyFloat) (hlen : x.length = V.length)
    (hx : x ≠ [])
    (hnx : x.any PyFloat.isNaN = false) (hnV : V.any PyFloat.isNaN = false)
    (hix : x.any PyFloat.isInf = false) (hiV : V.any PyFloat.isInf = false) :
    check_data_validity x V =
      .ok (statsOf (x.map PyFloat.val), statsOf (V.map PyFloat.val)) := by
  rw [check_data_validity, if_neg (by simp [hlen]),
    if_neg (by rw [← hlen]; simp [List.length_eq_zero, hx]),
    if_neg (by simp [hnx, hnV]), if_neg (by simp [hix, hiV])]

/-- C4: for every pair of equal-length, non-empty sequences with no
NaN/Inf element, `check_data_validity` succeeds and the reported
statistics of each sequence satisfy `min ≤ mean ≤ max` and have
non-negative variance (so `std = √var ≥ 0`). -/
theorem check_data_validity_valid_stats (x V : List PyFloat)
    (hlen : x.length = V.length) (hx : x ≠ [])
    (hfx : ∀ e ∈ x, e.isNaN = false ∧ e.isInf = false)
    (hfV : ∀ e ∈ V, e.isNaN = false ∧ e.isInf = false) :
    ∃ sx sV, check_data_validity x V = .ok (sx, sV) ∧
      sx.min ≤ sx.mean ∧ sx.mean ≤ sx.max ∧ 0 ≤ sx.var ∧
      sV.min ≤ sV.mean ∧ sV.mean ≤ sV.max ∧ 0 ≤ sV.var := by
  obtain ⟨hnx, hix⟩ := all_finite_any_false x hfx
  obtain ⟨hnV, hiV⟩ := all_finite_any_false V hfV
  have hV : V ≠ [] := by
    intro hV0
    rw [hV0] at hlen
    exact hx (List.eq_nil_of_length_eq_zero (by simpa using hlen))
  have hx2 : x.map PyFloat.val ≠ [] := by simpa using hx
  have hV2 : V.map PyFloat.val ≠ [] := by simpa using hV
  obtain ⟨a1, a2, a3⟩ := stats_sound (x.map PyFloat.val) hx2
  obtain ⟨b1, b2, b3⟩ := stats_sound (V.map PyFloat.val) hV2
  exact ⟨_, _, check_ok_of_valid x V hlen hx hnx hnV hix hiV,
    a1, a2, a3, b1, b2, b3⟩

/-- Witness for C4 on the concrete valid input `x = [0, 1]`,
`V = [74, 80]`. -/
theorem check_data_validity_valid_stats_witness :
    [PyFloat.fin 0, PyFloat.fin 1].length =
      [PyFloat.fin 74, PyFloat.fin 80].length ∧
    ∃ sx sV, check_data_validity [PyFloat.fin 0, PyFloat.fin 1]
        [PyFloat.fin 74, PyFloat.fin 80] = .ok (sx, sV) ∧
      sx.min ≤ sx.mean ∧ sx.mean ≤ sx.max ∧ 0 ≤ sx.var ∧
      sV.min ≤ sV.mean ∧ sV.mean ≤ sV.max ∧ 0 ≤ sV.var :=
  ⟨rfl, check_data_validity_valid_stats _ _ rfl (by simp)
    (by simp [PyFloat.isNaN, PyFloat.isInf])
    (by simp [PyFloat.isNaN, PyFloat.isInf])⟩

/-- C5: `check_data_validity` fails with `ShapeMismatch` when the
lengths differ, with `EmptyInput` when the (equal-length) sequences
are empty, with a non-finite-value error (the NaN or the Inf raise)
when some element of `x` or `V` is NaN or infinite, and succeeds
otherwise. -/
theorem check_data_validity_error_cases (x V : List PyFloat) :
    (x.length ≠ V.length → check_data_validity x V = .error .shapeMismatch) ∧
    (x.length = V.length → x = [] →
      check_data_validity x V = .error .emptyInput) ∧
    (x.length = V.length → x ≠ [] →
      ((∃ e ∈ x, e.isNaN ∨ e.isInf) ∨ (∃ e ∈ V, e.isNaN ∨ e.isInf)) →
      (check_data_validity x V = .error .nanValue ∨
        check_data_validity x V = .error .infValue)) ∧
    (x.length = V.length → x ≠ [] →
      (∀ e ∈ x, e.isNaN = false ∧ e.isInf = false) →
      (∀ e ∈ V, e.isNaN = false ∧ e.isInf = false) →
      ∃ s, check_data_validity x V = .ok s) := by
  refine ⟨fun h => ?_, fun h1 h2 => ?_, fun h1 h2 h3 => ?_,
    fun h1 h2 h3 h4 => ?_⟩
  · rw [check_data_validity, if_pos h]
  · rw [check_data_validity, if_neg (by simp [h1]),
      if_pos (Or.inl (by simp [h2]))]
  · by_cases hnx : x.any PyFloat.isNaN = true
    · exact Or.inl (by
        rw [check_data_validity, if_neg (by simp [h1]),
          if_neg (by rw [← h1]; simp [List.length_eq_zero, h2]),
          if_pos (Or.inl hnx)])
    · by_cases hnV : V.any PyFloat.isNaN = true
      · exact Or.inl (by
          rw [check_data_validity, if_neg (by simp [h1]),
            if_neg (by rw [← h1]; simp [List.length_eq_zero, h2]),
            if_pos (Or.inr hnV)])
      · have hinf : (x.any PyFloat.isInf = true) ∨
            (V.any PyFloat.isInf = true) := by
          rcases h3 with ⟨e, he, hei⟩ | ⟨e, he, hei⟩
          · rcases hei with hn | hi
            · exact absurd (List.any_eq_true.mpr ⟨e, he, hn⟩) hnx
            · exact Or.inl (List.any_eq_true.mpr ⟨e, he, hi⟩)
          · rcases hei with hn | hi
            · exact absurd (List.any_eq_true.mpr ⟨e, he, hn⟩) hnV
            · exact Or.inr (List.any_eq_true.mpr ⟨e, he, hi⟩)
        exact Or.inr (by
          rw [check_data_validity, if_neg (by simp [h1]),
            if_neg (by rw [← h1]; simp [List.length_eq_zero, h2]),
            if_neg (by simp [Bool.eq_false_iff.mpr hnx,
              Bool.eq_false_iff.mpr hnV]),
            if_pos hinf])
  · obtain ⟨hnx, hix⟩ := all_finite_any_false x h3
    obtain ⟨hnV, hiV⟩ := all_finite_any_false V h4
    exact ⟨_, check_ok_of_valid x V h1 h2 hnx hnV hix hiV⟩

/-- Witness for C5 at the spec's concrete inputs: `x=[0,1], V=[1]`
mismatches shapes, `x=[], V=[]` is empty, and `x=[0, NaN]` (with a
finite `V` of the same length) trips the non-finite-value check. -/
theorem check_data_validity_error_cases_witness :
    check_data_validity [PyFloat.fin 0, PyFloat.fin 1] [PyFloat.fin 1] =
      .error .shapeMismatch ∧
    check_data_validity [] [] = .error .emptyInput ∧
    (check_data_validity [PyFloat.fin 0, PyFloat.nan]
        [PyFloat.fin 1, PyFloat.fin 2] = .error .nanValue ∨
      check_data_validity [PyFloat.fin 0, PyFloat.nan]
        [PyFloat.fin 1, PyFloat.fin 2] = .error .infValue) :=
  ⟨(check_data_validity_error_cases _ _).1 (by simp),
   (check_data_validity_error_cases _ _).2.1 rfl rfl,
   (check_data_validity_error_cases _ _).2.2.1 rfl (by simp)
     (Or.inl ⟨PyFloat.nan, by simp, Or.inl rfl⟩)⟩

end MgFeO
